import Mathlib

/-
  Verification of the FaceFinder client core: the match-record normalizer,
  the video deduplicator and the fullscreen viewer navigator used by the
  Results view (src/pages/Results.tsx) and the Gallery view
  (src/pages/Gallery.tsx), together with the URL resolution helper
  (src/services/mockApiService.ts, getImageUrl).

  Numbers: similarity scores are modelled as rationals (the code only ever
  compares and copies them); timestamps are natural numbers of seconds;
  confidence percentages are rationals passed through unchanged.
  JavaScript falsiness of optional fields is modelled explicitly
  (`x || d` on an optional string treats null/undefined and "" as falsy;
  `timestamp || 0` on an optional number defaults to 0).
-/

namespace FaceFinder

/-- Raw API match item as consumed by Results.process and Gallery.loadGallery:
`{id, imageUrl, media_type?, timestamp?, similarity, confidence, ...}`.
Metadata passthrough fields that no claim mentions are omitted. -/
structure RawRecord where
  id : String
  imageUrl : String
  similarity : ℚ
  confidence : ℚ
  media_type : Option String
  timestamp : Option Nat
deriving DecidableEq, Repr

/-- Processed record (the `processedItem` shape built in Results.tsx lines
97-105 and Gallery.tsx lines 45-50): `media_type`, resp. `type`, resolved to a
plain string, `timestamps` populated for videos and absent for images. -/
structure NRecord where
  id : String
  imageUrl : String
  similarity : ℚ
  confidence : ℚ
  media_type : String
  timestamp : Option Nat
  timestamps : Option (List Nat)
deriving DecidableEq, Repr

/-- JavaScript `x || d` on an optional string: null/undefined and the empty
string are falsy and fall back to the default. -/
def jsOrStr (x : Option String) (d : String) : String :=
  match x with
  | none => d
  | some s => if s = "" then d else s

/-- JavaScript `s || d` on a plain string (used when the field is already a
string, as in `item.media_type || 'image'` over a processed record). -/
def jsStr (s : String) (d : String) : String :=
  if s = "" then d else s

/-- Backend base URL (mockApiService.ts line 18). -/
def API_BASE_URL : String := "https://jai14-facefinder.hf.space"

/-- URL resolution collaborator (mockApiService.ts lines 218-226): absolute
URLs pass through, `/api/images/` paths get the base URL prefixed, anything
else is treated as a bare storage path. -/
def getImageUrl (imagePath : String) : String :=
  if imagePath.startsWith "http://" || imagePath.startsWith "https://" then
    imagePath
  else if imagePath.startsWith "/api/images/" then
    API_BASE_URL ++ imagePath
  else
    API_BASE_URL ++ "/api/images/" ++ imagePath

/-- Merging one more detection timestamp into the accumulated list
(Results.tsx lines 116-119, Gallery.tsx lines 59-62):
`if (!timestamps.includes(ts)) { timestamps.push(ts); timestamps.sort((a,b) => a-b) }`.
Sorting with the numeric comparator is modelled by insertion sort; every
comparison sort of a list of numbers yields the same ascending result. -/
def tsInsert (l : List Nat) (ts : Nat) : List Nat :=
  if ts ∈ l then l else List.insertionSort (· ≤ ·) (l ++ [ts])

namespace Results

/-- Normalization of one raw item (Results.tsx lines 97-105): URL resolved,
`media_type` defaulted to "image", `timestamps` seeded with the single
(defaulted) timestamp for videos and absent for images. The `isSaved`,
`videoUrl` and `type` fields are omitted: `type` always equals the defaulted
`media_type` here and the code reads `media_type` in the dedup and filter. -/
def processItem (item : RawRecord) : NRecord :=
  { id := item.id
    imageUrl := getImageUrl item.imageUrl
    similarity := item.similarity
    confidence := item.confidence
    media_type := jsOrStr item.media_type "image"
    timestamp := item.timestamp
    timestamps :=
      if item.media_type = some "video" then some [item.timestamp.getD 0]
      else none }

/-- Merge of a later group member into the retained video record
(Results.tsx lines 114-127): collect the unique timestamp, then overwrite
similarity, confidence and the representative timestamp if the new member has
strictly higher similarity. -/
def mergeVideo (existing item : NRecord) : NRecord :=
  let ts := item.timestamp.getD 0
  let e1 : NRecord :=
    { existing with timestamps := existing.timestamps.map (fun l => tsInsert l ts) }
  if existing.similarity < item.similarity then
    { e1 with
        similarity := item.similarity
        confidence := item.confidence
        timestamp := some ts }
  else e1

end Results

namespace Gallery

/-- Normalization of one gallery item (Gallery.tsx lines 45-50). The service
layer (getGalleryImages) has already resolved `imageUrl`, so it is passed
through unchanged; `media_type` here stands for the `type` field the Gallery
code branches and filters on, `(item.media_type || 'image')`. -/
def processItem (item : RawRecord) : NRecord :=
  { id := item.id
    imageUrl := item.imageUrl
    similarity := item.similarity
    confidence := item.confidence
    media_type := jsOrStr item.media_type "image"
    timestamp := item.timestamp
    timestamps :=
      if item.media_type = some "video" then some [item.timestamp.getD 0]
      else none }

/-- Merge of a later group member into the retained video record
(Gallery.tsx lines 58-66): only the timestamps are merged; the record in the
map, including all its scalar fields, is kept as is. -/
def mergeVideo (existing item : NRecord) : NRecord :=
  let ts := item.timestamp.getD 0
  { existing with timestamps := existing.timestamps.map (fun l => tsInsert l ts) }

end Gallery

/-- One step of the shared deduplication loop (the body of the `forEach` in
Results.tsx lines 107-131 / Gallery.tsx lines 52-69), parameterized by the
per-view merge of a later member into the retained record.  The accumulator
is the pair `(processedImages, uniqueVideos)`; the JavaScript `Map` is an
insertion-ordered association list: `set` of a fresh key appends, updating an
existing key rewrites the value in place. -/
def dedupStep (merge : NRecord → NRecord → NRecord)
    (acc : List NRecord × List (String × NRecord)) (item : NRecord) :
    List NRecord × List (String × NRecord) :=
  if item.media_type = "video" then
    match acc.2.find? (fun p => decide (p.1 = item.imageUrl)) with
    | none => (acc.1, acc.2 ++ [(item.imageUrl, item)])
    | some _ =>
        (acc.1, acc.2.map (fun p =>
          if p.1 = item.imageUrl then (p.1, merge p.2 item) else p))
  else (acc.1 ++ [item], acc.2)

/-- Running the deduplication loop over a whole batch of processed records and
assembling `[...processedImages, ...uniqueVideos.values()]`. -/
def dedupRun (merge : NRecord → NRecord → NRecord) (l : List NRecord) :
    List NRecord :=
  let acc := l.foldl (dedupStep merge) ([], [])
  acc.1 ++ acc.2.map Prod.snd

namespace Results

/-- The Results deduplicator over already-normalized records. -/
def dedup : List NRecord → List NRecord := dedupRun mergeVideo

/-- One iteration of the `data.forEach` in Results.process (lines 93-131):
raw items whose id is in the saved set are dropped before normalization, all
others are normalized and fed to the deduplication step. -/
def processStep (savedIds : List String)
    (acc : List NRecord × List (String × NRecord)) (item : RawRecord) :
    List NRecord × List (String × NRecord) :=
  if item.id ∈ savedIds then acc
  else dedupStep mergeVideo acc (processItem item)

/-- The full Results processing pipeline (Results.tsx lines 89-133), up to and
including `finalResults = [...processedImages, ...uniqueVideos.values()]`.
The subsequent sort by descending similarity is a separate caller-level step
that permutes but never rewrites records. -/
def process (savedIds : List String) (data : List RawRecord) : List NRecord :=
  let acc := data.foldl (processStep savedIds) ([], [])
  acc.1 ++ acc.2.map Prod.snd

end Results

namespace Gallery

/-- The Gallery deduplicator over already-normalized records. -/
def dedup : List NRecord → List NRecord := dedupRun mergeVideo

/-- The Gallery load pipeline (Gallery.tsx lines 40-72): normalize each
fetched item and deduplicate.  The subsequent sort by descending numeric id is
a separate caller-level step that permutes but never rewrites records. -/
def load (images : List RawRecord) : List NRecord :=
  let acc := images.foldl (fun acc item => dedupStep mergeVideo acc (processItem item)) ([], [])
  acc.1 ++ acc.2.map Prod.snd

end Gallery

/-! ## Viewer navigator state machines -/

/-- Viewer mode of the Results view (`viewerMode` state): the metadata modal
(`info`) or the fullscreen viewer (`fullscreen`).  The fullscreen viewer is
rendered exactly when `selectedImage` is set and the mode is `fullscreen`. -/
inductive ViewerMode where
  | info
  | fullscreen
deriving DecidableEq, Repr

/-- JavaScript `selectedImage?.id === id`. -/
def selMatches (selectedImage : Option NRecord) (id : String) : Bool :=
  match selectedImage with
  | none => false
  | some sel => sel.id == id

/-- Navigation direction fed to `navigateImage`. -/
inductive Direction where
  | prev
  | next
deriving DecidableEq, Repr

namespace Results

/-- The component state of the Results view that the navigator claims are
about (Results.tsx lines 20-28); presentation-only state (loading flags,
touch coordinates) is omitted. -/
structure RState where
  results : List NRecord
  savedImageIds : List String
  activeMediaType : String
  selectedImage : Option NRecord
  viewerMode : ViewerMode
  currentImageIndex : Nat
deriving DecidableEq, Repr

/-- Derived filtered list (Results.tsx lines 171-174):
`results.filter(item => (item.media_type || 'image') === activeMediaType)`. -/
def filteredResults (s : RState) : List NRecord :=
  s.results.filter (fun item => decide (jsStr item.media_type "image" = s.activeMediaType))

/-- The viewer is open exactly when a record is selected in fullscreen mode. -/
def isOpen (s : RState) : Prop :=
  s.viewerMode = ViewerMode.fullscreen ∧ s.selectedImage.isSome

instance (s : RState) : Decidable (isOpen s) := by
  unfold isOpen
  infer_instance

/-- openFullscreenViewer (Results.tsx lines 234-239): look the clicked record
up by id in the currently filtered list; `findIndex` returns -1 when absent,
which the code maps to 0. -/
def openFullscreenViewer (image : NRecord) (s : RState) : RState :=
  let index :=
    match (filteredResults s).findIdx? (fun r => r.id == image.id) with
    | some i => i
    | none => 0
  { s with
      currentImageIndex := index
      selectedImage := some image
      viewerMode := ViewerMode.fullscreen }

/-- The Info button on a result card (Results.tsx lines 471-480): select the
record and show the metadata modal. -/
def openInfo (image : NRecord) (s : RState) : RState :=
  { s with selectedImage := some image, viewerMode := ViewerMode.info }

/-- navigateImage (Results.tsx lines 241-255): no-op on an empty filtered
list, otherwise step the index cyclically and select the record now at the new
index.  `(i - 1 + N) % N` over JavaScript numbers equals `(i + N - 1) % N`
over naturals. -/
def navigateImage (direction : Direction) (s : RState) : RState :=
  if (filteredResults s).length = 0 then s
  else
    let n := (filteredResults s).length
    let newIndex :=
      match direction with
      | Direction.next => (s.currentImageIndex + 1) % n
      | Direction.prev => (s.currentImageIndex + n - 1) % n
    { s with
        currentImageIndex := newIndex
        selectedImage := (filteredResults s)[newIndex]? }

/-- handleSave (Results.tsx lines 176-210).  `remoteOk` is whether the remote
`saveToGallery` call succeeded (vacuously true when no token is present); on
failure the catch block only shows a toast, so the state is unchanged.  On
success the record is marked saved and removed, and, if it was the one open in
the fullscreen viewer, the viewer is re-anchored at the clamped index or
closed when the filtered list became empty. -/
def handleSave (id : String) (fromFullscreen : Bool) (remoteOk : Bool)
    (s : RState) : RState :=
  match s.results.find? (fun r => r.id == id) with
  | none => s
  | some _ =>
    if remoteOk then
      let newResults := s.results.filter (fun p => !(p.id == id))
      let s1 := { s with
        savedImageIds := s.savedImageIds ++ [id]
        results := newResults }
      if fromFullscreen && selMatches s.selectedImage id then
        let currentFiltered := filteredResults s1
        if currentFiltered.length = 0 then
          { s1 with selectedImage := none, viewerMode := ViewerMode.info }
        else
          let currentIndex := min s.currentImageIndex (currentFiltered.length - 1)
          { s1 with
              currentImageIndex := currentIndex
              selectedImage := currentFiltered[currentIndex]? }
      else s1
    else s

/-- handleReject (Results.tsx lines 212-232): remove the record locally (no
remote call); if it was the one open in the fullscreen viewer, re-anchor at
the clamped index or close; if it was selected in the info modal, close. -/
def handleReject (id : String) (fromFullscreen : Bool) (s : RState) : RState :=
  let newResults := s.results.filter (fun p => !(p.id == id))
  let s1 := { s with results := newResults }
  if fromFullscreen && selMatches s.selectedImage id then
    let currentFiltered := filteredResults s1
    if currentFiltered.length = 0 then
      { s1 with selectedImage := none, viewerMode := ViewerMode.info }
    else
      let currentIndex := min s.currentImageIndex (currentFiltered.length - 1)
      { s1 with
          currentImageIndex := currentIndex
          selectedImage := currentFiltered[currentIndex]? }
  else if selMatches s.selectedImage id then
    { s1 with selectedImage := none, viewerMode := ViewerMode.info }
  else s1

/-- Closing the viewer or the metadata modal (close button, Escape key,
backdrop click): `setSelectedImage(null); setViewerMode('info')`. -/
def closeViewer (s : RState) : RState :=
  { s with selectedImage := none, viewerMode := ViewerMode.info }

/-- The media-type tab click handler (Results.tsx lines 301-307): it only
calls `setActiveMediaType(type)`; nothing else in the state is touched. -/
def setActiveMediaType (t : String) (s : RState) : RState :=
  { s with activeMediaType := t }

/-- The timestamp chip in the metadata modal (Results.tsx lines 679-694):
re-select the record with the clicked representative timestamp and switch to
fullscreen mode, without recomputing `currentImageIndex`. -/
def jumpToTimestamp (ts : Nat) (s : RState) : RState :=
  match s.selectedImage with
  | none => s
  | some sel =>
      { s with
          selectedImage := some { sel with timestamp := some ts }
          viewerMode := ViewerMode.fullscreen }

/-- Initial state of one result session, right after `process` populated
`results` (and possibly auto-switched the tab to "video"): no record is
selected and the stored index is 0. -/
def initState (results : List NRecord) (saved : List String) (mt : String) :
    RState :=
  { results := results
    savedImageIds := saved
    activeMediaType := mt
    selectedImage := none
    viewerMode := ViewerMode.info
    currentImageIndex := 0 }

/-- One user-interaction step of the Results view.  Guards reflect what the
rendered UI makes clickable: grid cards, their buttons and the tabs are
covered by the `fixed inset-0` overlays, so they require no overlay to be
shown (`selectedImage = none`); the fullscreen controls and the keyboard
handler require the fullscreen viewer; the timestamp chips require the info
modal on a video record. -/
inductive Step : RState → RState → Prop where
  | clickCard (s : RState) (image : NRecord)
      (hov : s.selectedImage = none) (hmem : image ∈ filteredResults s) :
      Step s (openFullscreenViewer image s)
  | clickInfo (s : RState) (image : NRecord)
      (hov : s.selectedImage = none) (hmem : image ∈ filteredResults s) :
      Step s (openInfo image s)
  | navigate (s : RState) (direction : Direction) (hop : isOpen s) :
      Step s (navigateImage direction s)
  | saveFullscreen (s : RState) (sel : NRecord) (remoteOk : Bool)
      (hfs : s.viewerMode = ViewerMode.fullscreen)
      (hsel : s.selectedImage = some sel) :
      Step s (handleSave sel.id true remoteOk s)
  | rejectFullscreen (s : RState) (sel : NRecord)
      (hfs : s.viewerMode = ViewerMode.fullscreen)
      (hsel : s.selectedImage = some sel) :
      Step s (handleReject sel.id true s)
  | saveCard (s : RState) (id : String) (remoteOk : Bool)
      (hov : s.selectedImage = none) :
      Step s (handleSave id false remoteOk s)
  | rejectCard (s : RState) (id : String) (hov : s.selectedImage = none) :
      Step s (handleReject id false s)
  | closeBtn (s : RState) (hsel : s.selectedImage.isSome) :
      Step s (closeViewer s)
  | switchTab (s : RState) (t : String) (hov : s.selectedImage = none) :
      Step s (setActiveMediaType t s)
  | timestampJump (s : RState) (sel : NRecord) (ts : Nat)
      (hinfo : s.viewerMode = ViewerMode.info)
      (hsel : s.selectedImage = some sel)
      (hvid : sel.media_type = "video")
      (hts : ts ∈ sel.timestamps.getD []) :
      Step s (jumpToTimestamp ts s)

/-- The same step relation without the timestamp-jump transition of the
metadata modal. -/
inductive StepNoJump : RState → RState → Prop where
  | clickCard (s : RState) (image : NRecord)
      (hov : s.selectedImage = none) (hmem : image ∈ filteredResults s) :
      StepNoJump s (openFullscreenViewer image s)
  | clickInfo (s : RState) (image : NRecord)
      (hov : s.selectedImage = none) (hmem : image ∈ filteredResults s) :
      StepNoJump s (openInfo image s)
  | navigate (s : RState) (direction : Direction) (hop : isOpen s) :
      StepNoJump s (navigateImage direction s)
  | saveFullscreen (s : RState) (sel : NRecord) (remoteOk : Bool)
      (hfs : s.viewerMode = ViewerMode.fullscreen)
      (hsel : s.selectedImage = some sel) :
      StepNoJump s (handleSave sel.id true remoteOk s)
  | rejectFullscreen (s : RState) (sel : NRecord)
      (hfs : s.viewerMode = ViewerMode.fullscreen)
      (hsel : s.selectedImage = some sel) :
      StepNoJump s (handleReject sel.id true s)
  | saveCard (s : RState) (id : String) (remoteOk : Bool)
      (hov : s.selectedImage = none) :
      StepNoJump s (handleSave id false remoteOk s)
  | rejectCard (s : RState) (id : String) (hov : s.selectedImage = none) :
      StepNoJump s (handleReject id false s)
  | closeBtn (s : RState) (hsel : s.selectedImage.isSome) :
      StepNoJump s (closeViewer s)
  | switchTab (s : RState) (t : String) (hov : s.selectedImage = none) :
      StepNoJump s (setActiveMediaType t s)

/-- Reachability in the Results view. -/
def Reachable (s0 s : RState) : Prop := Relation.ReflTransGen Step s0 s

/-- Reachability without the timestamp-jump transition. -/
def ReachableNoJump (s0 s : RState) : Prop :=
  Relation.ReflTransGen StepNoJump s0 s

end Results

namespace Gallery

/-- The component state of the Gallery view that the navigator claims are
about (Gallery.tsx lines 14-21). -/
structure GState where
  items : List NRecord
  activeMediaType : String
  selectedImage : Option NRecord
  currentImageIndex : Nat
  isZoomed : Bool
deriving DecidableEq, Repr

/-- Derived filtered list (Gallery.tsx line 84):
`items.filter(item => item.type === activeMediaType)`. -/
def filteredItems (s : GState) : List NRecord :=
  s.items.filter (fun item => decide (item.media_type = s.activeMediaType))

/-- The Gallery fullscreen viewer is open exactly when a record is selected
(Gallery.tsx line 352). -/
def isOpen (s : GState) : Prop := s.selectedImage.isSome

instance (s : GState) : Decidable (isOpen s) := by
  unfold isOpen
  infer_instance

/-- openImageViewer (Gallery.tsx lines 119-124). -/
def openImageViewer (image : NRecord) (s : GState) : GState :=
  let index :=
    match (filteredItems s).findIdx? (fun r => r.id == image.id) with
    | some i => i
    | none => 0
  { s with
      currentImageIndex := index
      selectedImage := some image
      isZoomed := false }

/-- navigateImage (Gallery.tsx lines 126-141). -/
def navigateImage (direction : Direction) (s : GState) : GState :=
  if (filteredItems s).length = 0 then s
  else
    let n := (filteredItems s).length
    let newIndex :=
      match direction with
      | Direction.next => (s.currentImageIndex + 1) % n
      | Direction.prev => (s.currentImageIndex + n - 1) % n
    { s with
        currentImageIndex := newIndex
        selectedImage := (filteredItems s)[newIndex]?
        isZoomed := false }

/-- handleDelete (Gallery.tsx lines 86-117).  `remoteOk` is whether the remote
`deleteFromGallery` call succeeded; on failure the catch block only logs and
shows a toast, so the state is unchanged.  On success the record is removed
and, if it was the selected one, the viewer is re-anchored at the clamped
index or closed. -/
def handleDelete (id : String) (remoteOk : Bool) (s : GState) : GState :=
  if remoteOk then
    let newItems := s.items.filter (fun item => !(item.id == id))
    let s1 := { s with items := newItems }
    if selMatches s.selectedImage id then
      if newItems.length = 0 then
        { s1 with selectedImage := none }
      else
        let currentFiltered := filteredItems s1
        if currentFiltered.length = 0 then
          { s1 with selectedImage := none }
        else
          let newIndex := min s.currentImageIndex (currentFiltered.length - 1)
          { s1 with
              currentImageIndex := newIndex
              selectedImage := currentFiltered[newIndex]? }
    else s1
  else s

/-- Closing the viewer (close button or Escape):
`setSelectedImage(null); setIsZoomed(false)`. -/
def closeViewer (s : GState) : GState :=
  { s with selectedImage := none, isZoomed := false }

/-- The media-type tab click handler (Gallery.tsx lines 216-223): it only
calls `setActiveMediaType(type)`. -/
def setActiveMediaType (t : String) (s : GState) : GState :=
  { s with activeMediaType := t }

/-- handleZoom (Gallery.tsx lines 167-180): a no-op for videos, otherwise
toggles the zoom sub-mode (the imperative style mutation is presentation
only). -/
def handleZoom (s : GState) : GState :=
  match s.selectedImage with
  | some sel => if sel.media_type = "video" then s else { s with isZoomed := !s.isZoomed }
  | none => { s with isZoomed := !s.isZoomed }

/-- Initial state of one gallery load, right after `load` populated `items`. -/
def initState (items : List NRecord) (mt : String) : GState :=
  { items := items
    activeMediaType := mt
    selectedImage := none
    currentImageIndex := 0
    isZoomed := false }

/-- One user-interaction step of the Gallery view.  Grid cards and tabs are
unreachable while the fullscreen overlay is shown (`selectedImage` set); the
viewer controls, the delete button and the keyboard handler require an open
viewer.  Deletion is only offered inside the viewer and always targets the
selected record. -/
inductive Step : GState → GState → Prop where
  | clickCard (s : GState) (image : NRecord)
      (hov : s.selectedImage = none) (hmem : image ∈ filteredItems s) :
      Step s (openImageViewer image s)
  | navigate (s : GState) (direction : Direction)
      (hsel : s.selectedImage.isSome) :
      Step s (navigateImage direction s)
  | deleteSelected (s : GState) (sel : NRecord) (remoteOk : Bool)
      (hsel : s.selectedImage = some sel) :
      Step s (handleDelete sel.id remoteOk s)
  | closeBtn (s : GState) (hsel : s.selectedImage.isSome) :
      Step s (closeViewer s)
  | switchTab (s : GState) (t : String) (hov : s.selectedImage = none) :
      Step s (setActiveMediaType t s)
  | zoom (s : GState) (hsel : s.selectedImage.isSome) :
      Step s (handleZoom s)

/-- Reachability in the Gallery view. -/
def Reachable (s0 s : GState) : Prop := Relation.ReflTransGen Step s0 s

end Gallery

/-! ## Analysis vocabulary for the deduplicator -/

/-- Membership test of one video group: video records pointing at the given
media URL (grouping is by exact string equality of the resolved URL). -/
def isVideoUrl (u : String) (r : NRecord) : Bool :=
  decide (r.media_type = "video" ∧ r.imageUrl = u)

/-- The members of one video group, in input order. -/
def members (u : String) (l : List NRecord) : List NRecord :=
  l.filter (isVideoUrl u)

/-- Folding one more group member into the optional retained record: the first
member is retained as is, later members are merged in. -/
def mergeStep (merge : NRecord → NRecord → NRecord)
    (o : Option NRecord) (i : NRecord) : Option NRecord :=
  match o with
  | none => some i
  | some e => some (merge e i)

/-- The retained record of a group given its members in input order. -/
def retainedFold (merge : NRecord → NRecord → NRecord) (ms : List NRecord) :
    Option NRecord :=
  ms.foldl (mergeStep merge) none

/-- First-match lookup in the insertion-ordered video map. -/
def lookupV (m : List (String × NRecord)) (u : String) : Option NRecord :=
  (m.find? (fun p => decide (p.1 = u))).map Prod.snd

/-- Well-formedness of the video map: keys are distinct and each entry is a
video record keyed by its own media URL. -/
def MapWF (m : List (String × NRecord)) : Prop :=
  (m.map Prod.fst).Nodup ∧ ∀ p ∈ m, p.2.imageUrl = p.1 ∧ p.2.media_type = "video"

/-- The scalar triple (similarity, confidence, representative timestamp)
obtained by letting each later group member with strictly higher similarity
than the current best overwrite the triple, in input order. -/
def bestScalars (sim conf : ℚ) (t : Option Nat) (rest : List NRecord) :
    ℚ × ℚ × Option Nat :=
  rest.foldl
    (fun b i =>
      if b.1 < i.similarity then (i.similarity, i.confidence, some (i.timestamp.getD 0))
      else b)
    (sim, conf, t)

/-! ## Concrete records used by the per-claim instances

Rational literals are written through the explicit constructor so that the
kernel can evaluate comparisons on them: `q09` denotes 0.9, `q095` denotes
0.95, `q08` denotes 0.8. -/

def q08 : ℚ := ⟨4, 5, by norm_num, by norm_num⟩

def q09 : ℚ := ⟨9, 10, by norm_num, by norm_num⟩

def q095 : ℚ := ⟨19, 20, by norm_num, by norm_num⟩

/-- Two detections of the same video, used to instantiate the timestamp
union property. -/
def c1v1 : NRecord := ⟨"1", "https://cdn/v1.mp4", 1, 73, "video", some 9, some [9]⟩

def c1v2 : NRecord := ⟨"2", "https://cdn/v1.mp4", 2, 88, "video", some 4, some [4]⟩

/-- The record the Results deduplicator retains for the `c1v1`/`c1v2` group. -/
def c1rec : NRecord := ⟨"1", "https://cdn/v1.mp4", 2, 88, "video", some 4, some [4, 9]⟩

/-- Scenario A inputs in normalized form: V has detections at 5s (similarity
0.9) and 12s (similarity 0.95); W has one detection with no timestamp,
defaulted to 0 (similarity 0.8). -/
def c2a1 : NRecord := ⟨"1", "V", q09, 90, "video", some 5, some [5]⟩

def c2a2 : NRecord := ⟨"2", "V", q095, 95, "video", some 12, some [12]⟩

def c2a3 : NRecord := ⟨"3", "W", q08, 80, "video", none, some [0]⟩

/-- The record Scenario A retains for V in the Results view. -/
def c2aV : NRecord := ⟨"1", "V", q095, 95, "video", some 12, some [5, 12]⟩

/-- The record the Gallery deduplicator retains for V: timestamps merged but
similarity, confidence and representative timestamp kept from the first
sighting. -/
def c2gV : NRecord := ⟨"1", "V", q09, 90, "video", some 5, some [5, 12]⟩

/-- Raw inputs for the saved-id filtering instance; `c10r3` carries an id in
the saved set. -/
def c10r1 : RawRecord := ⟨"5", "a.jpg", 1, 50, none, none⟩

def c10r2 : RawRecord := ⟨"6", "b.mp4", 2, 60, some "video", some 3⟩

def c10r3 : RawRecord := ⟨"7", "c.jpg", 3, 70, none, none⟩

/-- Concrete records for the viewer-navigator instances: two images and one
video with a detection at 7 seconds. -/
def navImg1 : NRecord := ⟨"i1", "https://cdn/1.jpg", 1, 50, "image", none, none⟩

def navImg2 : NRecord := ⟨"i2", "https://cdn/2.jpg", 1, 50, "image", none, none⟩

def navVid : NRecord := ⟨"v1", "https://cdn/v.mp4", 1, 50, "video", some 7, some [7]⟩

/-- Stale-index trace for the Results viewer: open the second image
(index 1), close, switch to the video tab, open the video metadata modal,
then jump to a timestamp. -/
def c3s0 : Results.RState := Results.initState [navImg1, navImg2, navVid] [] "image"

def c3s1 : Results.RState := Results.openFullscreenViewer navImg2 c3s0

def c3s2 : Results.RState := Results.closeViewer c3s1

def c3s3 : Results.RState := Results.setActiveMediaType "video" c3s2

def c3s4 : Results.RState := Results.openInfo navVid c3s3

def c3s5 : Results.RState := Results.jumpToTimestamp 7 c3s4

/-- One-step open state used to instantiate the amended navigator
invariant. -/
def c3w0 : Results.RState := Results.initState [navImg1, navImg2] [] "image"

def c3w1 : Results.RState := Results.openFullscreenViewer navImg1 c3w0

/-- A Results state with the fullscreen viewer open on the first of two
images, and one with no matching records, for the navigation instances. -/
def c6s : Results.RState :=
  { results := [navImg1, navImg2]
    savedImageIds := []
    activeMediaType := "image"
    selectedImage := some navImg1
    viewerMode := ViewerMode.fullscreen
    currentImageIndex := 0 }

def c6e : Results.RState :=
  { results := [navVid]
    savedImageIds := []
    activeMediaType := "image"
    selectedImage := none
    viewerMode := ViewerMode.info
    currentImageIndex := 0 }

/-- A Gallery state with the viewer open on the first of two images, and one
with an empty filtered list. -/
def c6g : Gallery.GState :=
  { items := [navImg1, navImg2]
    activeMediaType := "image"
    selectedImage := some navImg1
    currentImageIndex := 0
    isZoomed := false }

def c6ge : Gallery.GState :=
  { items := [navVid]
    activeMediaType := "image"
    selectedImage := none
    currentImageIndex := 0
    isZoomed := false }

/-- A Results state with the viewer open at the last of three images, for the
removal-reanchoring instance: deleting the third image must clamp to
index 1. -/
def c5img3 : NRecord := ⟨"i3", "https://cdn/3.jpg", 1, 50, "image", none, none⟩

def c5s : Results.RState :=
  { results := [navImg1, navImg2, c5img3]
    savedImageIds := []
    activeMediaType := "image"
    selectedImage := some c5img3
    viewerMode := ViewerMode.fullscreen
    currentImageIndex := 2 }

/-- A Gallery state with the viewer open on its only item. -/
def c5g : Gallery.GState :=
  { items := [navImg1]
    activeMediaType := "image"
    selectedImage := some navImg1
    currentImageIndex := 0
    isZoomed := false }

/-- Reachable closed Results state with a stale stored index: open the second
image, close, then the tab handler fires. -/
def c7s0 : Results.RState := Results.initState [navImg1, navImg2] [] "image"

def c7s1 : Results.RState := Results.openFullscreenViewer navImg2 c7s0

def c7s2 : Results.RState := Results.closeViewer c7s1

def c7s3 : Results.RState := Results.setActiveMediaType "video" c7s2

/-- A Gallery state whose only item is selected, for the failed-remote-delete
instance. -/
def c8item : NRecord := ⟨"8", "https://cdn/p8.jpg", 1, 55, "image", none, none⟩

def c8state : Gallery.GState :=
  { items := [c8item]
    activeMediaType := "image"
    selectedImage := some c8item
    currentImageIndex := 0
    isZoomed := false }

/-- Raw records exercising the media-type normalization: an unexpected string,
an absent field and a well-known value. -/
def c9audio : RawRecord := ⟨"9", "x.bin", 1, 40, some "audio", none⟩

def c9none : RawRecord := ⟨"10", "p.jpg", 1, 40, none, none⟩

def c9video : RawRecord := ⟨"11", "v.mp4", 1, 40, some "video", some 2⟩

/-! ## Timestamp-merge lemmas -/

/-- Membership in the merged timestamp list. -/
theorem mem_tsInsert (l : List Nat) (ts x : Nat) :
    x ∈ tsInsert l ts ↔ x ∈ l ∨ x = ts := by
  unfold tsInsert
  split
  · rename_i hmem
    constructor
    · exact fun h => Or.inl h
    · rintro (h | rfl)
      · exact h
      · exact hmem
  · rw [(List.perm_insertionSort _ _).mem_iff, List.mem_append,
      List.mem_singleton]

/-- The merged timestamp list stays strictly increasing. -/
theorem tsInsert_sorted {l : List Nat} (h : l.Sorted (· < ·)) (ts : Nat) :
    (tsInsert l ts).Sorted (· < ·) := by
  unfold tsInsert
  split
  · exact h
  · rename_i hmem
    have hle : (List.insertionSort (· ≤ ·) (l ++ [ts])).Sorted (· ≤ ·) :=
      List.sorted_insertionSort _ _
    have hnd : (List.insertionSort (· ≤ ·) (l ++ [ts])).Nodup := by
      rw [(List.perm_insertionSort _ _).nodup_iff]
      rw [List.nodup_append]
      refine ⟨h.nodup, List.nodup_singleton ts, ?_⟩
      intro x hx hx'
      rw [List.mem_singleton] at hx'
      exact hmem (hx' ▸ hx)
    exact hle.lt_of_le hnd

/-! ## Generic deduplication-fold lemmas -/

/-- Effect of one deduplication step on the lookup of a fixed URL. -/
theorem lookupV_dedupStep (merge : NRecord → NRecord → NRecord)
    (acc : List NRecord × List (String × NRecord)) (item : NRecord)
    (u : String) :
    lookupV (dedupStep merge acc item).2 u =
      if isVideoUrl u item then mergeStep merge (lookupV acc.2 u) item
      else lookupV acc.2 u := by
  unfold dedupStep isVideoUrl
  by_cases hv : item.media_type = "video"
  · simp only [hv, if_true, decide_eq_true_eq, true_and]
    cases hfind : acc.2.find? (fun p => decide (p.1 = item.imageUrl)) with
    | none =>
      simp only [hfind]
      by_cases hu : item.imageUrl = u
      · subst hu
        unfold lookupV
        rw [List.find?_append, hfind]
        simp [mergeStep, lookupV, hfind]
      · unfold lookupV
        rw [List.find?_append]
        have : List.find? (fun p => decide (p.1 = u)) [(item.imageUrl, item)] = none := by
          simp [hu]
        rw [this]
        simp [hu]
    | some p0 =>
      simp only [hfind]
      have hkey : ∀ q : String × NRecord,
          ((fun p => if p.1 = item.imageUrl then (p.1, merge p.2 item) else p) q).1
            = q.1 := by
        intro q
        by_cases hq : q.1 = item.imageUrl <;> simp [hq]
      unfold lookupV
      rw [List.find?_map]
      have hcomp : ((fun p : String × NRecord => decide (p.1 = u)) ∘
          (fun p => if p.1 = item.imageUrl then (p.1, merge p.2 item) else p)) =
          (fun p : String × NRecord => decide (p.1 = u)) := by
        funext q
        simp only [Function.comp_apply, hkey q]
      rw [hcomp]
      by_cases hu : item.imageUrl = u
      · subst hu
        rw [hfind]
        have hp0 : p0.1 = item.imageUrl := by
          have := List.find?_some hfind
          simpa using this
        simp [hp0, mergeStep, lookupV, hfind]
      · simp only [if_neg hu]
        cases hfind2 : acc.2.find? (fun p => decide (p.1 = u)) with
        | none => simp
        | some q0 =>
          have hq0 : q0.1 = u := by
            have := List.find?_some hfind2
            simpa using this
          have : ¬ q0.1 = item.imageUrl := by
            rw [hq0]
            exact fun h => hu h.symm
          simp [this]
  · simp only [hv, if_false]
    have : (decide (item.media_type = "video" ∧ item.imageUrl = u)) = false := by
      simp [hv]
    simp [this]

/-- Running the deduplication fold relates the final lookup of each URL to the
group-member fold, relative to any starting accumulator. -/
theorem lookupV_foldl (merge : NRecord → NRecord → NRecord) :
    ∀ (l : List NRecord) (acc : List NRecord × List (String × NRecord))
      (u : String),
      lookupV (l.foldl (dedupStep merge) acc).2 u =
        (members u l).foldl (mergeStep merge) (lookupV acc.2 u) := by
  intro l
  induction l with
  | nil => intro acc u; rfl
  | cons x xs ih =>
    intro acc u
    rw [List.foldl_cons, ih]
    unfold members
    rw [List.filter_cons]
    by_cases hx : isVideoUrl u x
    · rw [if_pos hx, List.foldl_cons, lookupV_dedupStep, if_pos hx]
    · rw [if_neg hx, lookupV_dedupStep, if_neg hx]

/-- Over the empty starting accumulator, the lookup of each URL is exactly the
retained record of its group. -/
theorem lookupV_dedup (merge : NRecord → NRecord → NRecord)
    (l : List NRecord) (u : String) :
    lookupV (l.foldl (dedupStep merge) ([], [])).2 u =
      retainedFold merge (members u l) :=
  lookupV_foldl merge l ([], []) u

/-- Folding from a present retained record keeps it present. -/
theorem foldl_mergeStep_some (merge : NRecord → NRecord → NRecord) :
    ∀ (ms : List NRecord) (e : NRecord),
      ms.foldl (mergeStep merge) (some e) = some (ms.foldl merge e) := by
  intro ms
  induction ms with
  | nil => intro e; rfl
  | cons i rest ih => intro e; rw [List.foldl_cons, List.foldl_cons]; exact ih _

/-- The retained record of a nonempty group is the merge-fold of the later
members into the first. -/
theorem retainedFold_cons (merge : NRecord → NRecord → NRecord)
    (m : NRecord) (rest : List NRecord) :
    retainedFold merge (m :: rest) = some (rest.foldl merge m) := by
  unfold retainedFold
  rw [List.foldl_cons]
  exact foldl_mergeStep_some merge rest m

/-- The image side of the accumulator collects exactly the non-video records,
in input order, unchanged. -/
theorem fst_foldl_dedupStep (merge : NRecord → NRecord → NRecord) :
    ∀ (l : List NRecord) (acc : List NRecord × List (String × NRecord)),
      (l.foldl (dedupStep merge) acc).1 =
        acc.1 ++ l.filter (fun r => decide (r.media_type ≠ "video")) := by
  intro l
  induction l with
  | nil => intro acc; simp
  | cons x xs ih =>
    intro acc
    rw [List.foldl_cons, ih, List.filter_cons]
    by_cases hx : x.media_type = "video"
    · have h1 : (decide (x.media_type ≠ "video")) = false := by simp [hx]
      have h2 : (dedupStep merge acc x).1 = acc.1 := by
        unfold dedupStep
        rw [if_pos hx]
        cases acc.2.find? (fun p => decide (p.1 = x.imageUrl)) <;> rfl
      rw [h1, h2]
      simp
    · have h1 : (decide (x.media_type ≠ "video")) = true := by simp [hx]
      have h2 : (dedupStep merge acc x).1 = acc.1 ++ [x] := by
        unfold dedupStep
        rw [if_neg hx]
      rw [h1, h2]
      simp

/-- Deduplication steps preserve well-formedness of the video map, provided
the merge preserves the URL and the media type of the retained record. -/
theorem mapWF_dedupStep (merge : NRecord → NRecord → NRecord)
    (hurl : ∀ e i, (merge e i).imageUrl = e.imageUrl)
    (hmt : ∀ e i, (merge e i).media_type = e.media_type)
    (acc : List NRecord × List (String × NRecord)) (item : NRecord)
    (hwf : MapWF acc.2) : MapWF (dedupStep merge acc item).2 := by
  unfold dedupStep
  by_cases hv : item.media_type = "video"
  · simp only [if_pos hv]
    cases hfind : acc.2.find? (fun p => decide (p.1 = item.imageUrl)) with
    | none =>
      refine ⟨?_, ?_⟩
      · rw [List.map_append, List.nodup_append]
        refine ⟨hwf.1, List.nodup_singleton _, ?_⟩
        intro k hk hk'
        simp only [List.map_cons, List.map_nil, List.mem_singleton] at hk'
        subst hk'
        rw [List.mem_map] at hk
        obtain ⟨p, hp, hpk⟩ := hk
        rw [List.find?_eq_none] at hfind
        exact hfind p hp (by simp [hpk])
      · intro p hp
        rw [List.mem_append] at hp
        rcases hp with hp | hp
        · exact hwf.2 p hp
        · rw [List.mem_singleton] at hp
          subst hp
          exact ⟨rfl, hv⟩
    | some p0 =>
      refine ⟨?_, ?_⟩
      · have : ((acc.2.map fun p =>
            if p.1 = item.imageUrl then (p.1, merge p.2 item) else p).map
              Prod.fst) = acc.2.map Prod.fst := by
          rw [List.map_map]
          apply List.map_congr_left
          intro q _
          by_cases hq : q.1 = item.imageUrl <;> simp [hq]
        rw [this]
        exact hwf.1
      · intro p hp
        rw [List.mem_map] at hp
        obtain ⟨q, hq, hpq⟩ := hp
        by_cases hqk : q.1 = item.imageUrl
        · rw [if_pos hqk] at hpq
          subst hpq
          exact ⟨by rw [hurl, (hwf.2 q hq).1], by rw [hmt, (hwf.2 q hq).2]⟩
        · rw [if_neg hqk] at hpq
          subst hpq
          exact hwf.2 q hq
  · simpa only [if_neg hv] using hwf

/-- Well-formedness of the video map along the whole fold. -/
theorem mapWF_foldl (merge : NRecord → NRecord → NRecord)
    (hurl : ∀ e i, (merge e i).imageUrl = e.imageUrl)
    (hmt : ∀ e i, (merge e i).media_type = e.media_type) :
    ∀ (l : List NRecord) (acc : List NRecord × List (String × NRecord)),
      MapWF acc.2 → MapWF (l.foldl (dedupStep merge) acc).2 := by
  intro l
  induction l with
  | nil => intro acc h; exact h
  | cons x xs ih =>
    intro acc h
    rw [List.foldl_cons]
    exact ih _ (mapWF_dedupStep merge hurl hmt acc x h)

/-- In a map with distinct keys, an entry is found by its own key. -/
theorem find?_of_mem_of_nodup_keys :
    ∀ (m : List (String × NRecord)) (p : String × NRecord),
      (m.map Prod.fst).Nodup → p ∈ m →
      m.find? (fun q => decide (q.1 = p.1)) = some p := by
  intro m
  induction m with
  | nil => intro p _ hp; cases hp
  | cons h t ih =>
    intro p hnd hp
    rw [List.map_cons, List.nodup_cons] at hnd
    rcases List.mem_cons.mp hp with rfl | hp'
    · simp [List.find?_cons]
    · have hne : ¬ h.1 = p.1 := by
        intro heq
        exact hnd.1 (heq ▸ List.mem_map_of_mem Prod.fst hp')
      rw [List.find?_cons]
      have : (decide (h.1 = p.1)) = false := by simp [hne]
      rw [this]
      exact ih p hnd.2 hp'

/-- A batch of non-video records only extends the image side. -/
theorem foldl_dedupStep_images (merge : NRecord → NRecord → NRecord) :
    ∀ (l : List NRecord) (acc : List NRecord × List (String × NRecord)),
      (∀ r ∈ l, r.media_type ≠ "video") →
      l.foldl (dedupStep merge) acc = (acc.1 ++ l, acc.2) := by
  intro l
  induction l with
  | nil => intro acc _; simp
  | cons x xs ih =>
    intro acc hl
    rw [List.foldl_cons]
    have hstep : dedupStep merge acc x = (acc.1 ++ [x], acc.2) := by
      unfold dedupStep
      rw [if_neg (hl x (List.mem_cons_self x xs))]
    rw [hstep, ih _ (fun r hr => hl r (List.mem_cons_of_mem x hr))]
    simp

/-- A batch of video records keyed by fresh, pairwise-distinct URLs replays
the video map exactly. -/
theorem foldl_dedupStep_videos (merge : NRecord → NRecord → NRecord) :
    ∀ (vs : List (String × NRecord))
      (acc : List NRecord × List (String × NRecord)),
      (∀ p ∈ vs, p.2.imageUrl = p.1 ∧ p.2.media_type = "video") →
      (vs.map Prod.fst).Nodup →
      (∀ p ∈ vs, ∀ q ∈ acc.2, q.1 ≠ p.1) →
      (vs.map Prod.snd).foldl (dedupStep merge) acc = (acc.1, acc.2 ++ vs) := by
  intro vs
  induction vs with
  | nil => intro acc _ _ _; simp
  | cons v vt ih =>
    intro acc hwf hnd hdisj
    rw [List.map_cons, List.foldl_cons]
    have hv := hwf v (List.mem_cons_self v vt)
    have hstep : dedupStep merge acc v.2 = (acc.1, acc.2 ++ [(v.1, v.2)]) := by
      unfold dedupStep
      rw [if_pos hv.2]
      have : acc.2.find? (fun p => decide (p.1 = v.2.imageUrl)) = none := by
        rw [List.find?_eq_none]
        intro q hq
        simp only [decide_eq_true_eq]
        rw [hv.1]
        exact hdisj v (List.mem_cons_self v vt) q hq
      rw [this, hv.1]
    rw [hstep]
    rw [List.map_cons, List.nodup_cons] at hnd
    have := ih (acc.1, acc.2 ++ [(v.1, v.2)])
      (fun p hp => hwf p (List.mem_cons_of_mem v hp)) hnd.2
      (by
        intro p hp q hq
        rw [List.mem_append] at hq
        rcases hq with hq | hq
        · exact hdisj p (List.mem_cons_of_mem v hp) q hq
        · rw [List.mem_singleton] at hq
          subst hq
          intro heq
          exact hnd.1 (heq ▸ List.mem_map_of_mem Prod.fst hp))
    rw [this]
    simp

/-- Idempotence of the deduplication pipeline for any merge that preserves the
URL and media type of the retained record. -/
theorem dedupRun_idem (merge : NRecord → NRecord → NRecord)
    (hurl : ∀ e i, (merge e i).imageUrl = e.imageUrl)
    (hmt : ∀ e i, (merge e i).media_type = e.media_type)
    (l : List NRecord) :
    dedupRun merge (dedupRun merge l) = dedupRun merge l := by
  unfold dedupRun
  set A := l.foldl (dedupStep merge) ([], []) with hA
  have himg : A.1 = l.filter (fun r => decide (r.media_type ≠ "video")) := by
    rw [hA, fst_foldl_dedupStep]
    simp
  have hwf : MapWF A.2 :=
    mapWF_foldl merge hurl hmt l ([], []) ⟨List.nodup_nil, by intro p hp; cases hp⟩
  have h1 : A.1.foldl (dedupStep merge) ([], []) = (A.1, []) := by
    have := foldl_dedupStep_images merge A.1 ([], [])
      (by
        intro r hr
        rw [himg, List.mem_filter] at hr
        simpa using hr.2)
    simpa using this
  rw [List.foldl_append, h1]
  have h2 : (A.2.map Prod.snd).foldl (dedupStep merge) (A.1, []) =
      (A.1, [] ++ A.2) := by
    exact foldl_dedupStep_videos merge A.2 (A.1, []) hwf.2 hwf.1
      (by intro p _ q hq; cases hq)
  rw [h2]
  simp

/-- Central structural lemma: every video record in the deduplicated output is
the merge-fold of the later members of its URL group into the first member. -/
theorem dedupRun_video_mem (merge : NRecord → NRecord → NRecord)
    (hurl : ∀ e i, (merge e i).imageUrl = e.imageUrl)
    (hmt : ∀ e i, (merge e i).media_type = e.media_type)
    (l : List NRecord) (rec : NRecord)
    (hmem : rec ∈ dedupRun merge l) (hv : rec.media_type = "video") :
    ∃ first rest, members rec.imageUrl l = first :: rest ∧
      rec = rest.foldl merge first := by
  unfold dedupRun at hmem
  set A := l.foldl (dedupStep merge) ([], []) with hA
  rw [List.mem_append] at hmem
  rcases hmem with hmem | hmem
  · exfalso
    have himg : A.1 = l.filter (fun r => decide (r.media_type ≠ "video")) := by
      rw [hA, fst_foldl_dedupStep]
      simp
    rw [himg, List.mem_filter] at hmem
    have := hmem.2
    simp only [decide_eq_true_eq] at this
    exact this hv
  · rw [List.mem_map] at hmem
    obtain ⟨p, hp, hrec⟩ := hmem
    have hwf : MapWF A.2 :=
      mapWF_foldl merge hurl hmt l ([], [])
        ⟨List.nodup_nil, by intro q hq; cases hq⟩
    have hurl_p : rec.imageUrl = p.1 := by
      rw [← hrec]
      exact (hwf.2 p hp).1
    have hlook : lookupV A.2 p.1 = some rec := by
      unfold lookupV
      rw [find?_of_mem_of_nodup_keys A.2 p hwf.1 hp]
      simp [hrec]
    have hret : retainedFold merge (members p.1 l) = some rec := by
      rw [← lookupV_dedup merge l p.1, ← hA]
      exact hlook
    cases hms : members p.1 l with
    | nil =>
      rw [hms] at hret
      cases hret
    | cons first rest =>
      rw [hms, retainedFold_cons] at hret
      refine ⟨first, rest, ?_, ?_⟩
      · rw [hurl_p, hms]
      · exact (Option.some_injective _ hret).symm

/-! ## Properties of the two merge functions -/

theorem Results.mergeVideo_imageUrl (e i : NRecord) :
    (Results.mergeVideo e i).imageUrl = e.imageUrl := by
  simp only [Results.mergeVideo]
  split <;> rfl

theorem Results.mergeVideo_media_type (e i : NRecord) :
    (Results.mergeVideo e i).media_type = e.media_type := by
  simp only [Results.mergeVideo]
  split <;> rfl

theorem Results.mergeVideo_id (e i : NRecord) :
    (Results.mergeVideo e i).id = e.id := by
  simp only [Results.mergeVideo]
  split <;> rfl

theorem Results.mergeVideo_timestamps (e i : NRecord) :
    (Results.mergeVideo e i).timestamps =
      e.timestamps.map (fun ls => tsInsert ls (i.timestamp.getD 0)) := by
  simp only [Results.mergeVideo]
  split <;> rfl

theorem Results.mergeVideo_similarity (e i : NRecord) :
    (Results.mergeVideo e i).similarity =
      if e.similarity < i.similarity then i.similarity else e.similarity := by
  simp only [Results.mergeVideo]
  split <;> simp_all

theorem Results.mergeVideo_confidence (e i : NRecord) :
    (Results.mergeVideo e i).confidence =
      if e.similarity < i.similarity then i.confidence else e.confidence := by
  simp only [Results.mergeVideo]
  split <;> simp_all

theorem Results.mergeVideo_timestamp (e i : NRecord) :
    (Results.mergeVideo e i).timestamp =
      if e.similarity < i.similarity then some (i.timestamp.getD 0)
      else e.timestamp := by
  simp only [Results.mergeVideo]
  split <;> simp_all

theorem Gallery.mergeVideo_eq (e i : NRecord) :
    Gallery.mergeVideo e i =
      { e with timestamps :=
          e.timestamps.map (fun ls => tsInsert ls (i.timestamp.getD 0)) } := rfl

/-! ## Group-fold property lemmas -/

/-- The id of the retained record never changes. -/
theorem foldl_merge_id (merge : NRecord → NRecord → NRecord)
    (hid : ∀ e i, (merge e i).id = e.id) :
    ∀ (rest : List NRecord) (e : NRecord), (rest.foldl merge e).id = e.id := by
  intro rest
  induction rest with
  | nil => intro e; rfl
  | cons i rest ih =>
    intro e
    rw [List.foldl_cons, ih, hid]

/-- Merging the members of a group accumulates a strictly increasing,
duplicate-free timestamp list holding exactly the initial timestamps plus the
single (defaulted) timestamp of every later member. -/
theorem foldl_merge_timestamps (merge : NRecord → NRecord → NRecord)
    (hts : ∀ e i, (merge e i).timestamps =
      e.timestamps.map (fun ls => tsInsert ls (i.timestamp.getD 0))) :
    ∀ (rest : List NRecord) (e : NRecord) (ts0 : List Nat),
      e.timestamps = some ts0 → ts0.Sorted (· < ·) →
      ∃ ts, (rest.foldl merge e).timestamps = some ts ∧ ts.Sorted (· < ·) ∧
        ∀ x, (x ∈ ts ↔ x ∈ ts0 ∨ x ∈ rest.map (fun r => r.timestamp.getD 0)) := by
  intro rest
  induction rest with
  | nil =>
    intro e ts0 h0 hs0
    exact ⟨ts0, by simpa using h0, hs0, by simp⟩
  | cons i rest ih =>
    intro e ts0 h0 hs0
    rw [List.foldl_cons]
    have h1 : (merge e i).timestamps = some (tsInsert ts0 (i.timestamp.getD 0)) := by
      rw [hts, h0]
      rfl
    obtain ⟨ts, hts', hsort, hmem⟩ :=
      ih (merge e i) (tsInsert ts0 (i.timestamp.getD 0)) h1 (tsInsert_sorted hs0 _)
    refine ⟨ts, hts', hsort, ?_⟩
    intro x
    rw [hmem x, mem_tsInsert, List.map_cons, List.mem_cons]
    tauto

/-- The scalar triple of the Results retained record follows the
best-similarity overwrite fold. -/
theorem foldl_mergeR_scalars :
    ∀ (rest : List NRecord) (e : NRecord),
      ((rest.foldl Results.mergeVideo e).similarity,
       (rest.foldl Results.mergeVideo e).confidence,
       (rest.foldl Results.mergeVideo e).timestamp) =
        bestScalars e.similarity e.confidence e.timestamp rest := by
  intro rest
  induction rest with
  | nil => intro e; rfl
  | cons i rest ih =>
    intro e
    rw [List.foldl_cons, ih]
    unfold bestScalars
    rw [List.foldl_cons]
    by_cases hlt : e.similarity < i.similarity
    · rw [Results.mergeVideo_similarity, Results.mergeVideo_confidence,
        Results.mergeVideo_timestamp, if_pos hlt, if_pos hlt, if_pos hlt,
        if_pos hlt]
    · rw [Results.mergeVideo_similarity, Results.mergeVideo_confidence,
        Results.mergeVideo_timestamp, if_neg hlt, if_neg hlt, if_neg hlt,
        if_neg hlt]

/-- The Gallery merge keeps every scalar field of the first group member. -/
theorem foldl_mergeG_scalars :
    ∀ (rest : List NRecord) (e : NRecord),
      (rest.foldl Gallery.mergeVideo e).similarity = e.similarity ∧
      (rest.foldl Gallery.mergeVideo e).confidence = e.confidence ∧
      (rest.foldl Gallery.mergeVideo e).timestamp = e.timestamp := by
  intro rest
  induction rest with
  | nil => intro e; exact ⟨rfl, rfl, rfl⟩
  | cons i rest ih =>
    intro e
    rw [List.foldl_cons]
    exact ih _

/-- Shared derivation for the timestamp claims of both deduplicators. -/
theorem dedupRun_video_timestamps (merge : NRecord → NRecord → NRecord)
    (hurl : ∀ e i, (merge e i).imageUrl = e.imageUrl)
    (hmt : ∀ e i, (merge e i).media_type = e.media_type)
    (hts : ∀ e i, (merge e i).timestamps =
      e.timestamps.map (fun ls => tsInsert ls (i.timestamp.getD 0)))
    (l : List NRecord)
    (hnorm : ∀ r ∈ l, r.media_type = "video" →
      r.timestamps = some [r.timestamp.getD 0])
    (rec : NRecord) (hmem : rec ∈ dedupRun merge l)
    (hv : rec.media_type = "video") :
    ∃ ts, rec.timestamps = some ts ∧ ts.Sorted (· < ·) ∧
      ∀ x, (x ∈ ts ↔ ∃ r ∈ l, r.media_type = "video" ∧
        r.imageUrl = rec.imageUrl ∧ r.timestamp.getD 0 = x) := by
  obtain ⟨first, rest, hms, hrec⟩ := dedupRun_video_mem merge hurl hmt l rec hmem hv
  have hfirst_mem : first ∈ members rec.imageUrl l := by
    rw [hms]
    exact List.mem_cons_self _ _
  have hfirst : first ∈ l ∧ first.media_type = "video" ∧
      first.imageUrl = rec.imageUrl := by
    unfold members isVideoUrl at hfirst_mem
    rw [List.mem_filter, decide_eq_true_eq] at hfirst_mem
    exact ⟨hfirst_mem.1, hfirst_mem.2.1, hfirst_mem.2.2⟩
  have hfts : first.timestamps = some [first.timestamp.getD 0] :=
    hnorm first hfirst.1 hfirst.2.1
  obtain ⟨ts, h1, h2, h3⟩ := foldl_merge_timestamps merge hts rest first
    [first.timestamp.getD 0] hfts (List.sorted_singleton _)
  refine ⟨ts, by rw [hrec]; exact h1, h2, ?_⟩
  intro x
  rw [h3 x]
  have hiff : (x ∈ [first.timestamp.getD 0] ∨
      x ∈ rest.map (fun r => r.timestamp.getD 0)) ↔
      x ∈ (members rec.imageUrl l).map (fun r => r.timestamp.getD 0) := by
    rw [hms]
    simp
  rw [hiff, List.mem_map]
  constructor
  · rintro ⟨r, hr, hx⟩
    unfold members isVideoUrl at hr
    rw [List.mem_filter, decide_eq_true_eq] at hr
    exact ⟨r, hr.1, hr.2.1, hr.2.2, hx⟩
  · rintro ⟨r, hr, hv', hu', hx⟩
    refine ⟨r, ?_, hx⟩
    unfold members isVideoUrl
    rw [List.mem_filter, decide_eq_true_eq]
    exact ⟨hr, hv', hu'⟩

/-! ## Claim theorems for the deduplicator -/

/-- C1: for every batch of normalized match records, each video group in the
output of the deduplicator (Results and Gallery alike, grouped by exact
`mediaUrl` string equality) carries a strictly increasing, duplicate-free
timestamps sequence whose elements are exactly the set-union of the single
(default 0) timestamps of all input records sharing that URL. -/
theorem c1_dedup_timestamps_sorted_union (l : List NRecord)
    (hnorm : ∀ r ∈ l, r.media_type = "video" →
      r.timestamps = some [r.timestamp.getD 0]) :
    (∀ rec ∈ Results.dedup l, rec.media_type = "video" →
      ∃ ts, rec.timestamps = some ts ∧ ts.Sorted (· < ·) ∧
        ∀ x, (x ∈ ts ↔ ∃ r ∈ l, r.media_type = "video" ∧
          r.imageUrl = rec.imageUrl ∧ r.timestamp.getD 0 = x)) ∧
    (∀ rec ∈ Gallery.dedup l, rec.media_type = "video" →
      ∃ ts, rec.timestamps = some ts ∧ ts.Sorted (· < ·) ∧
        ∀ x, (x ∈ ts ↔ ∃ r ∈ l, r.media_type = "video" ∧
          r.imageUrl = rec.imageUrl ∧ r.timestamp.getD 0 = x)) := by
  constructor
  · intro rec hmem hv
    exact dedupRun_video_timestamps Results.mergeVideo
      Results.mergeVideo_imageUrl Results.mergeVideo_media_type
      Results.mergeVideo_timestamps l hnorm rec hmem hv
  · intro rec hmem hv
    exact dedupRun_video_timestamps Gallery.mergeVideo
      (fun _ _ => rfl) (fun _ _ => rfl) (fun _ _ => rfl) l hnorm rec hmem hv

/-- Witness for C1 at the concrete two-detection group. -/
theorem c1_witness :
    ∃ ts, c1rec.timestamps = some ts ∧ ts.Sorted (· < ·) ∧
      ∀ x, (x ∈ ts ↔ ∃ r ∈ [c1v1, c1v2], r.media_type = "video" ∧
        r.imageUrl = c1rec.imageUrl ∧ r.timestamp.getD 0 = x) :=
  (c1_dedup_timestamps_sorted_union [c1v1, c1v2] (by decide)).1
    c1rec (by decide) rfl

/-- C2 counterexample: the Gallery deduplicator does not overwrite the
retained record with the scalars of a later, strictly higher-similarity
member; for the two-member group `[c2a1, c2a2]` the retained similarity stays
0.9 even though the later member has 0.95. -/
theorem c2_counterexample :
    Gallery.dedup [c2a1, c2a2] = [c2gV] ∧
    c2a1.similarity < c2a2.similarity ∧
    c2gV.similarity ≠ c2a2.similarity ∧
    c2gV.timestamp ≠ some (c2a2.timestamp.getD 0) := by
  refine ⟨by decide, by decide, by decide, by decide⟩

/-- C2 amended: in the Results deduplicator the retained record of each video
group keeps the id of the first record seen with that URL while its
similarity, confidence and representative timestamp follow the
strictly-higher-similarity overwrite fold over the later members (in input
order), and Scenario A holds as stated; the Gallery deduplicator also fixes
the id at first sighting, but keeps the similarity, confidence and
representative timestamp of the first member unchanged instead of applying
the overwrite rule. -/
theorem c2_amended :
    (∀ (l : List NRecord), ∀ rec ∈ Results.dedup l, rec.media_type = "video" →
      ∃ first rest, members rec.imageUrl l = first :: rest ∧
        rec.id = first.id ∧
        (rec.similarity, rec.confidence, rec.timestamp) =
          bestScalars first.similarity first.confidence first.timestamp rest) ∧
    (Results.dedup [c2a1, c2a2, c2a3] = [c2aV, c2a3] ∧
      c2aV.id = "1" ∧ c2aV.timestamps = some [5, 12] ∧
      c2aV.similarity = (0.95 : ℚ) ∧
      c2a3.id = "3" ∧ c2a3.timestamps = some [0]) ∧
    (∀ (l : List NRecord), ∀ rec ∈ Gallery.dedup l, rec.media_type = "video" →
      ∃ first rest, members rec.imageUrl l = first :: rest ∧
        rec.id = first.id ∧ rec.similarity = first.similarity ∧
        rec.confidence = first.confidence ∧
        rec.timestamp = first.timestamp) := by
  refine ⟨?_, ⟨by decide, rfl, rfl, ?_, rfl, rfl⟩, ?_⟩
  · intro l rec hmem hv
    obtain ⟨first, rest, hms, hrec⟩ := dedupRun_video_mem Results.mergeVideo
      Results.mergeVideo_imageUrl Results.mergeVideo_media_type l rec hmem hv
    refine ⟨first, rest, hms, ?_, ?_⟩
    · rw [hrec]
      exact foldl_merge_id Results.mergeVideo Results.mergeVideo_id rest first
    · rw [hrec]
      exact foldl_mergeR_scalars rest first
  · show q095 = (0.95 : ℚ)
    norm_num [q095, Rat.mk'_eq_divInt, Rat.divInt_eq_div]
  · intro l rec hmem hv
    obtain ⟨first, rest, hms, hrec⟩ := dedupRun_video_mem Gallery.mergeVideo
      (fun _ _ => rfl) (fun _ _ => rfl) l rec hmem hv
    obtain ⟨h1, h2, h3⟩ := foldl_mergeG_scalars rest first
    refine ⟨first, rest, hms, ?_, ?_, ?_, ?_⟩
    · rw [hrec]
      exact foldl_merge_id Gallery.mergeVideo (fun _ _ => rfl) rest first
    · rw [hrec]; exact h1
    · rw [hrec]; exact h2
    · rw [hrec]; exact h3

/-- Witness for C2 at the Scenario A batch, for the Results and the Gallery
parts of the amended claim. -/
theorem c2_witness :
    (∃ first rest, members c2aV.imageUrl [c2a1, c2a2, c2a3] = first :: rest ∧
      c2aV.id = first.id ∧
      (c2aV.similarity, c2aV.confidence, c2aV.timestamp) =
        bestScalars first.similarity first.confidence first.timestamp rest) ∧
    (∃ first rest, members c2gV.imageUrl [c2a1, c2a2, c2a3] = first :: rest ∧
      c2gV.id = first.id ∧ c2gV.similarity = first.similarity ∧
      c2gV.confidence = first.confidence ∧
      c2gV.timestamp = first.timestamp) :=
  ⟨c2_amended.1 [c2a1, c2a2, c2a3] c2aV (by decide) rfl,
   c2_amended.2.2 [c2a1, c2a2, c2a3] c2gV (by decide) rfl⟩

/-- C4: running either deduplicator a second time on its own output changes
nothing: no further merging happens, no record or timestamps list changes. -/
theorem c4_dedup_idempotent (l : List NRecord) :
    Results.dedup (Results.dedup l) = Results.dedup l ∧
    Gallery.dedup (Gallery.dedup l) = Gallery.dedup l :=
  ⟨dedupRun_idem Results.mergeVideo Results.mergeVideo_imageUrl
      Results.mergeVideo_media_type l,
   dedupRun_idem Gallery.mergeVideo (fun _ _ => rfl) (fun _ _ => rfl) l⟩

/-- C10: in the Results view, a raw search result whose id is in the saved-id
set contributes nothing at all to the processed output: dropping it from the
input leaves the output of the full pipeline unchanged. -/
theorem c10_saved_ids_dropped (savedIds : List String) (l1 l2 : List RawRecord)
    (r : RawRecord) (h : r.id ∈ savedIds) :
    Results.process savedIds (l1 ++ r :: l2) =
      Results.process savedIds (l1 ++ l2) := by
  unfold Results.process
  have hstep : ∀ acc, Results.processStep savedIds acc r = acc := by
    intro acc
    unfold Results.processStep
    rw [if_pos h]
  rw [List.foldl_append, List.foldl_append, List.foldl_cons, hstep]

/-- Witness for C10: a saved raw record inserted in the middle of a batch
leaves the processed output unchanged. -/
theorem c10_witness :
    Results.process ["7"] ([c10r1] ++ c10r3 :: [c10r2]) =
      Results.process ["7"] ([c10r1] ++ [c10r2]) :=
  c10_saved_ids_dropped ["7"] [c10r1] [c10r2] c10r3 (by decide)

/-! ## Claim theorems for the viewer navigators -/

/-- C7 counterexample: the tab handler only calls `setActiveMediaType`.  On
the reachable closed state `c7s2`, whose stored index is 1 after an earlier
open-at-1 and close, switching the filter leaves the stored index at 1 instead
of resetting it to 0; moreover, applied to the open state `c7s1` the handler
does not close the viewer at all. -/
theorem c7_counterexample :
    Results.Reachable c7s0 c7s3 ∧
    c7s2.selectedImage = none ∧
    c7s3 = Results.setActiveMediaType "video" c7s2 ∧
    c7s3.currentImageIndex = 1 ∧
    ¬ c7s3.currentImageIndex = 0 ∧
    (Results.setActiveMediaType "video" c7s1).selectedImage = some navImg2 ∧
    (Results.setActiveMediaType "video" c7s1).viewerMode =
      ViewerMode.fullscreen := by
  refine ⟨?_, rfl, rfl, by decide, by decide, rfl, rfl⟩
  have h1 : Results.Step c7s0 c7s1 :=
    Results.Step.clickCard c7s0 navImg2 rfl (by decide)
  have h2 : Results.Step c7s1 c7s2 :=
    Results.Step.closeBtn c7s1 (by decide)
  have h3 : Results.Step c7s2 c7s3 :=
    Results.Step.switchTab c7s2 "video" rfl
  exact Relation.ReflTransGen.tail
    (Relation.ReflTransGen.tail (Relation.ReflTransGen.single h1) h2) h3

/-- C7 amended: switching the media-type tab recomputes the filtered list for
the new type but touches nothing else: the selected record, viewer mode and
stored index are all left unchanged (so the stale index is not reset, and a
viewer that were open would stay open); no item is auto-opened.  In the
rendered UI the tabs are only clickable while no overlay is shown, so the
viewer is in fact closed before and after. -/
theorem c7_amended (s : Results.RState) (t : String) (gs : Gallery.GState) :
    (Results.setActiveMediaType t s).activeMediaType = t ∧
    (Results.setActiveMediaType t s).selectedImage = s.selectedImage ∧
    (Results.setActiveMediaType t s).viewerMode = s.viewerMode ∧
    (Results.setActiveMediaType t s).currentImageIndex = s.currentImageIndex ∧
    (Results.setActiveMediaType t s).results = s.results ∧
    Results.filteredResults (Results.setActiveMediaType t s) =
      s.results.filter (fun item => decide (jsStr item.media_type "image" = t)) ∧
    (Gallery.setActiveMediaType t gs).activeMediaType = t ∧
    (Gallery.setActiveMediaType t gs).selectedImage = gs.selectedImage ∧
    (Gallery.setActiveMediaType t gs).currentImageIndex = gs.currentImageIndex ∧
    Gallery.filteredItems (Gallery.setActiveMediaType t gs) =
      gs.items.filter (fun item => decide (item.media_type = t)) :=
  ⟨rfl, rfl, rfl, rfl, rfl, rfl, rfl, rfl, rfl, rfl⟩

/-- C8 counterexample: when the remote delete fails, the record is not removed
from the local gallery list at all: the state is unchanged and the record is
still present, contradicting the claim that the optimistic removal is left in
place. -/
theorem c8_counterexample :
    Gallery.handleDelete c8item.id false c8state = c8state ∧
    c8item ∈ (Gallery.handleDelete c8item.id false c8state).items := by
  exact ⟨by decide, by decide⟩

/-- C8 amended: the local list mutation is not optimistic: both the Results
save handler and the Gallery delete handler perform the remote call first and
mutate the local list only after it succeeds, so a failed remote call leaves
the state entirely unchanged (the record remains in the list; there is nothing
to roll back). -/
theorem c8_amended (s : Results.RState) (id : String) (fromFullscreen : Bool)
    (gs : Gallery.GState) (gid : String) :
    Results.handleSave id fromFullscreen false s = s ∧
    Gallery.handleDelete gid false gs = gs := by
  constructor
  · unfold Results.handleSave
    cases s.results.find? (fun r => r.id == id) with
    | none => rfl
    | some _ => simp
  · unfold Gallery.handleDelete
    simp

/-- C9 counterexample: the normalizer is `item.media_type || 'image'`; a
media type outside {image, video} such as "audio" passes through unchanged
instead of being replaced by "image". -/
theorem c9_counterexample :
    (Results.processItem c9audio).media_type = "audio" ∧
    ¬ (Results.processItem c9audio).media_type = "image" ∧
    (Gallery.processItem c9audio).media_type = "audio" := by
  exact ⟨by decide, by decide, by decide⟩

/-- C9 amended: the normalizer sets mediaType to "image" exactly when the raw
field is absent or the empty string, and passes through every other string
unchanged — including strings outside {image, video}. -/
theorem c9_amended (item : RawRecord) :
    ((item.media_type = none ∨ item.media_type = some "") →
      (Results.processItem item).media_type = "image" ∧
      (Gallery.processItem item).media_type = "image") ∧
    (∀ str, item.media_type = some str → ¬ str = "" →
      (Results.processItem item).media_type = str ∧
      (Gallery.processItem item).media_type = str) := by
  constructor
  · rintro (h | h) <;>
      simp [Results.processItem, Gallery.processItem, jsOrStr, h]
  · intro str hs hne
    simp [Results.processItem, Gallery.processItem, jsOrStr, hs, hne]

/-- Witness for C9: an absent media type defaults to image and the value
"video" passes through. -/
theorem c9_witness :
    ((Results.processItem c9none).media_type = "image" ∧
      (Gallery.processItem c9none).media_type = "image") ∧
    ((Results.processItem c9video).media_type = "video" ∧
      (Gallery.processItem c9video).media_type = "video") :=
  ⟨(c9_amended c9none).1 (Or.inl rfl),
   (c9_amended c9video).2 "video" rfl (by decide)⟩

/-! ## Navigation lemmas -/

theorem Results.navigateImage_results (d : Direction) (s : Results.RState) :
    (Results.navigateImage d s).results = s.results := by
  unfold Results.navigateImage
  split <;> rfl

theorem Results.navigateImage_activeMediaType (d : Direction)
    (s : Results.RState) :
    (Results.navigateImage d s).activeMediaType = s.activeMediaType := by
  unfold Results.navigateImage
  split <;> rfl

theorem Results.navigateImage_viewerMode (d : Direction)
    (s : Results.RState) :
    (Results.navigateImage d s).viewerMode = s.viewerMode := by
  unfold Results.navigateImage
  split <;> rfl

theorem Results.filteredResults_navigateImage (d : Direction)
    (s : Results.RState) :
    Results.filteredResults (Results.navigateImage d s) =
      Results.filteredResults s := by
  simp only [Results.filteredResults, Results.navigateImage_results,
    Results.navigateImage_activeMediaType]

theorem Results.navigateImage_next_index (s : Results.RState)
    (h : (Results.filteredResults s).length ≠ 0) :
    (Results.navigateImage Direction.next s).currentImageIndex =
      (s.currentImageIndex + 1) % (Results.filteredResults s).length := by
  unfold Results.navigateImage
  rw [if_neg h]

theorem Results.navigateImage_prev_index (s : Results.RState)
    (h : (Results.filteredResults s).length ≠ 0) :
    (Results.navigateImage Direction.prev s).currentImageIndex =
      (s.currentImageIndex + (Results.filteredResults s).length - 1) %
        (Results.filteredResults s).length := by
  unfold Results.navigateImage
  rw [if_neg h]

theorem Results.navigateImage_next_selected (s : Results.RState)
    (h : (Results.filteredResults s).length ≠ 0) :
    (Results.navigateImage Direction.next s).selectedImage =
      (Results.filteredResults s)[(s.currentImageIndex + 1) %
        (Results.filteredResults s).length]? := by
  unfold Results.navigateImage
  rw [if_neg h]

theorem Results.nav_next_iterate :
    ∀ (k : Nat) (s : Results.RState),
      s.currentImageIndex < (Results.filteredResults s).length →
      ((Results.navigateImage Direction.next)^[k] s).currentImageIndex =
        (s.currentImageIndex + k) % (Results.filteredResults s).length ∧
      Results.filteredResults ((Results.navigateImage Direction.next)^[k] s) =
        Results.filteredResults s := by
  intro k
  induction k with
  | zero =>
    intro s h
    exact ⟨(Nat.mod_eq_of_lt h).symm, rfl⟩
  | succ k ih =>
    intro s h
    have hpos : 0 < (Results.filteredResults s).length := Nat.zero_lt_of_lt h
    rw [Function.iterate_succ_apply]
    have hf := Results.filteredResults_navigateImage Direction.next s
    have hidx := Results.navigateImage_next_index s hpos.ne'
    have h' : (Results.navigateImage Direction.next s).currentImageIndex <
        (Results.filteredResults (Results.navigateImage Direction.next s)).length := by
      rw [hf, hidx]
      exact Nat.mod_lt _ hpos
    obtain ⟨h1, h2⟩ := ih (Results.navigateImage Direction.next s) h'
    refine ⟨?_, by rw [h2, hf]⟩
    rw [h1, hf, hidx, Nat.mod_add_mod]
    have : s.currentImageIndex + 1 + k = s.currentImageIndex + (k + 1) := by
      omega
    rw [this]

theorem Gallery.navigateImage_items (d : Direction) (s : Gallery.GState) :
    (Gallery.navigateImage d s).items = s.items := by
  unfold Gallery.navigateImage
  split <;> rfl

theorem Gallery.navigateImage_activeType (d : Direction)
    (s : Gallery.GState) :
    (Gallery.navigateImage d s).activeMediaType = s.activeMediaType := by
  unfold Gallery.navigateImage
  split <;> rfl

theorem Gallery.filteredItems_navigateImage (d : Direction)
    (s : Gallery.GState) :
    Gallery.filteredItems (Gallery.navigateImage d s) =
      Gallery.filteredItems s := by
  simp only [Gallery.filteredItems, Gallery.navigateImage_items,
    Gallery.navigateImage_activeType]

theorem Gallery.navigateImage_next_idx (s : Gallery.GState)
    (h : (Gallery.filteredItems s).length ≠ 0) :
    (Gallery.navigateImage Direction.next s).currentImageIndex =
      (s.currentImageIndex + 1) % (Gallery.filteredItems s).length := by
  unfold Gallery.navigateImage
  rw [if_neg h]

theorem Gallery.navigateImage_prev_idx (s : Gallery.GState)
    (h : (Gallery.filteredItems s).length ≠ 0) :
    (Gallery.navigateImage Direction.prev s).currentImageIndex =
      (s.currentImageIndex + (Gallery.filteredItems s).length - 1) %
        (Gallery.filteredItems s).length := by
  unfold Gallery.navigateImage
  rw [if_neg h]

theorem Gallery.navigateImage_next_sel (s : Gallery.GState)
    (h : (Gallery.filteredItems s).length ≠ 0) :
    (Gallery.navigateImage Direction.next s).selectedImage =
      (Gallery.filteredItems s)[(s.currentImageIndex + 1) %
        (Gallery.filteredItems s).length]? := by
  unfold Gallery.navigateImage
  rw [if_neg h]

theorem Gallery.nav_next_iter :
    ∀ (k : Nat) (s : Gallery.GState),
      s.currentImageIndex < (Gallery.filteredItems s).length →
      ((Gallery.navigateImage Direction.next)^[k] s).currentImageIndex =
        (s.currentImageIndex + k) % (Gallery.filteredItems s).length ∧
      Gallery.filteredItems ((Gallery.navigateImage Direction.next)^[k] s) =
        Gallery.filteredItems s := by
  intro k
  induction k with
  | zero =>
    intro s h
    exact ⟨(Nat.mod_eq_of_lt h).symm, rfl⟩
  | succ k ih =>
    intro s h
    have hpos : 0 < (Gallery.filteredItems s).length := Nat.zero_lt_of_lt h
    rw [Function.iterate_succ_apply]
    have hf := Gallery.filteredItems_navigateImage Direction.next s
    have hidx := Gallery.navigateImage_next_idx s hpos.ne'
    have h' : (Gallery.navigateImage Direction.next s).currentImageIndex <
        (Gallery.filteredItems (Gallery.navigateImage Direction.next s)).length := by
      rw [hf, hidx]
      exact Nat.mod_lt _ hpos
    obtain ⟨h1, h2⟩ := ih (Gallery.navigateImage Direction.next s) h'
    refine ⟨?_, by rw [h2, hf]⟩
    rw [h1, hf, hidx, Nat.mod_add_mod]
    have : s.currentImageIndex + 1 + k = s.currentImageIndex + (k + 1) := by
      omega
    rw [this]

/-- C6: in both views, from a state over an N-item filtered list the
navigator steps cyclically: next lands on (i+1) mod N, prev on (i+N-1) mod N
(the natural-number form of (i-1+N) mod N), the record at the new index is
selected and the viewer stays open; N successive next calls return to the
starting index; on an empty filtered list both directions are exact no-ops. -/
theorem c6_cyclic_navigation :
    (∀ (s : Results.RState) (d : Direction),
      Results.filteredResults s = [] → Results.navigateImage d s = s) ∧
    (∀ s : Results.RState, (Results.filteredResults s).length ≠ 0 →
      (Results.navigateImage Direction.next s).currentImageIndex =
        (s.currentImageIndex + 1) % (Results.filteredResults s).length ∧
      (Results.navigateImage Direction.prev s).currentImageIndex =
        (s.currentImageIndex + (Results.filteredResults s).length - 1) %
          (Results.filteredResults s).length ∧
      (Results.navigateImage Direction.next s).selectedImage =
        (Results.filteredResults s)[(s.currentImageIndex + 1) %
          (Results.filteredResults s).length]? ∧
      (Results.navigateImage Direction.next s).viewerMode = s.viewerMode) ∧
    (∀ s : Results.RState,
      s.currentImageIndex < (Results.filteredResults s).length →
      ((Results.navigateImage Direction.next)^[(Results.filteredResults s).length]
        s).currentImageIndex = s.currentImageIndex) ∧
    (∀ (s : Gallery.GState) (d : Direction),
      Gallery.filteredItems s = [] → Gallery.navigateImage d s = s) ∧
    (∀ s : Gallery.GState, (Gallery.filteredItems s).length ≠ 0 →
      (Gallery.navigateImage Direction.next s).currentImageIndex =
        (s.currentImageIndex + 1) % (Gallery.filteredItems s).length ∧
      (Gallery.navigateImage Direction.prev s).currentImageIndex =
        (s.currentImageIndex + (Gallery.filteredItems s).length - 1) %
          (Gallery.filteredItems s).length ∧
      (Gallery.navigateImage Direction.next s).selectedImage =
        (Gallery.filteredItems s)[(s.currentImageIndex + 1) %
          (Gallery.filteredItems s).length]?) ∧
    (∀ s : Gallery.GState,
      s.currentImageIndex < (Gallery.filteredItems s).length →
      ((Gallery.navigateImage Direction.next)^[(Gallery.filteredItems s).length]
        s).currentImageIndex = s.currentImageIndex) := by
  refine ⟨?_, ?_, ?_, ?_, ?_, ?_⟩
  · intro s d h
    have hlen : (Results.filteredResults s).length = 0 := by rw [h]; rfl
    unfold Results.navigateImage
    rw [if_pos hlen]
  · intro s h
    exact ⟨Results.navigateImage_next_index s h,
      Results.navigateImage_prev_index s h,
      Results.navigateImage_next_selected s h,
      Results.navigateImage_viewerMode Direction.next s⟩
  · intro s h
    rw [(Results.nav_next_iterate (Results.filteredResults s).length s h).1,
      Nat.add_mod_right, Nat.mod_eq_of_lt h]
  · intro s d h
    have hlen : (Gallery.filteredItems s).length = 0 := by rw [h]; rfl
    unfold Gallery.navigateImage
    rw [if_pos hlen]
  · intro s h
    exact ⟨Gallery.navigateImage_next_idx s h,
      Gallery.navigateImage_prev_idx s h,
      Gallery.navigateImage_next_sel s h⟩
  · intro s h
    rw [(Gallery.nav_next_iter (Gallery.filteredItems s).length s h).1,
      Nat.add_mod_right, Nat.mod_eq_of_lt h]

/-- Witness for C6 on concrete two-item and empty filtered lists. -/
theorem c6_witness :
    Results.navigateImage Direction.next c6e = c6e ∧
    (Results.navigateImage Direction.next c6s).currentImageIndex =
      (c6s.currentImageIndex + 1) % (Results.filteredResults c6s).length ∧
    ((Results.navigateImage Direction.next)^[(Results.filteredResults c6s).length]
      c6s).currentImageIndex = c6s.currentImageIndex ∧
    Gallery.navigateImage Direction.prev c6ge = c6ge ∧
    ((Gallery.navigateImage Direction.next)^[(Gallery.filteredItems c6g).length]
      c6g).currentImageIndex = c6g.currentImageIndex :=
  ⟨c6_cyclic_navigation.1 c6e Direction.next (by decide),
   (c6_cyclic_navigation.2.1 c6s (by decide)).1,
   c6_cyclic_navigation.2.2.1 c6s (by decide),
   c6_cyclic_navigation.2.2.2.1 c6ge Direction.prev (by decide),
   c6_cyclic_navigation.2.2.2.2.2 c6g (by decide)⟩

/-- C5: whenever the record currently open in the fullscreen viewer is
removed — saved or rejected in Results, deleted in Gallery — the navigator
closes if the resulting filtered list is empty and otherwise re-opens at the
clamped index min(currentIndex, N-1), selecting the record now at that slot. -/
theorem c5_remove_current_reanchor :
    (∀ (s : Results.RState) (sel : NRecord),
      s.selectedImage = some sel →
      (s.results.find? (fun r => r.id == sel.id)).isSome →
      ((Results.filteredResults (Results.handleSave sel.id true true s) = [] →
        (Results.handleSave sel.id true true s).selectedImage = none ∧
        (Results.handleSave sel.id true true s).viewerMode = ViewerMode.info) ∧
       (¬ Results.filteredResults (Results.handleSave sel.id true true s) = [] →
        (Results.handleSave sel.id true true s).currentImageIndex =
          min s.currentImageIndex
            ((Results.filteredResults (Results.handleSave sel.id true true s)).length - 1) ∧
        (Results.handleSave sel.id true true s).selectedImage =
          (Results.filteredResults (Results.handleSave sel.id true true s))[
            (Results.handleSave sel.id true true s).currentImageIndex]?))) ∧
    (∀ (s : Results.RState) (sel : NRecord),
      s.selectedImage = some sel →
      ((Results.filteredResults (Results.handleReject sel.id true s) = [] →
        (Results.handleReject sel.id true s).selectedImage = none ∧
        (Results.handleReject sel.id true s).viewerMode = ViewerMode.info) ∧
       (¬ Results.filteredResults (Results.handleReject sel.id true s) = [] →
        (Results.handleReject sel.id true s).currentImageIndex =
          min s.currentImageIndex
            ((Results.filteredResults (Results.handleReject sel.id true s)).length - 1) ∧
        (Results.handleReject sel.id true s).selectedImage =
          (Results.filteredResults (Results.handleReject sel.id true s))[
            (Results.handleReject sel.id true s).currentImageIndex]?))) ∧
    (∀ (s : Gallery.GState) (sel : NRecord),
      s.selectedImage = some sel →
      ((Gallery.filteredItems (Gallery.handleDelete sel.id true s) = [] →
        (Gallery.handleDelete sel.id true s).selectedImage = none) ∧
       (¬ Gallery.filteredItems (Gallery.handleDelete sel.id true s) = [] →
        (Gallery.handleDelete sel.id true s).currentImageIndex =
          min s.currentImageIndex
            ((Gallery.filteredItems (Gallery.handleDelete sel.id true s)).length - 1) ∧
        (Gallery.handleDelete sel.id true s).selectedImage =
          (Gallery.filteredItems (Gallery.handleDelete sel.id true s))[
            (Gallery.handleDelete sel.id true s).currentImageIndex]?))) := by
  refine ⟨?_, ?_, ?_⟩
  · intro s sel hsel hfind
    obtain ⟨photo, hph⟩ := Option.isSome_iff_exists.mp hfind
    have hsm : selMatches s.selectedImage sel.id = true := by
      rw [hsel]
      simp [selMatches]
    unfold Results.handleSave
    rw [hph]
    simp only [hsm, Bool.and_self, if_true, reduceIte]
    split
    · rename_i h0
      exact ⟨fun _ => ⟨rfl, rfl⟩,
        fun hne => absurd (List.eq_nil_of_length_eq_zero h0) hne⟩
    · rename_i h0
      refine ⟨fun hemp => absurd (congrArg List.length hemp) h0, fun _ => ⟨rfl, rfl⟩⟩
  · intro s sel hsel
    have hsm : selMatches s.selectedImage sel.id = true := by
      rw [hsel]
      simp [selMatches]
    unfold Results.handleReject
    simp only [hsm, Bool.and_self, if_true, reduceIte]
    split
    · rename_i h0
      exact ⟨fun _ => ⟨rfl, rfl⟩,
        fun hne => absurd (List.eq_nil_of_length_eq_zero h0) hne⟩
    · rename_i h0
      refine ⟨fun hemp => absurd (congrArg List.length hemp) h0, fun _ => ⟨rfl, rfl⟩⟩
  · intro s sel hsel
    have hsm : selMatches s.selectedImage sel.id = true := by
      rw [hsel]
      simp [selMatches]
    unfold Gallery.handleDelete
    simp only [hsm, if_true, reduceIte]
    split
    · rename_i h0
      refine ⟨fun _ => rfl, fun hne => ?_⟩
      exfalso
      apply hne
      show (s.items.filter (fun item => !(item.id == sel.id))).filter _ = []
      rw [List.eq_nil_of_length_eq_zero h0]
      rfl
    · rename_i h0
      split
      · rename_i h1
        exact ⟨fun _ => rfl,
          fun hne => absurd (List.eq_nil_of_length_eq_zero h1) hne⟩
      · rename_i h1
        refine ⟨fun hemp => absurd (congrArg List.length hemp) h1,
          fun _ => ⟨rfl, rfl⟩⟩

/-- Witness for C5: deleting the last of three open images in Results clamps
the index from 2 to 1, and deleting the only Gallery item closes the
viewer. -/
theorem c5_witness :
    ((Results.handleReject c5img3.id true c5s).currentImageIndex =
        min c5s.currentImageIndex
          ((Results.filteredResults (Results.handleReject c5img3.id true c5s)).length - 1) ∧
      (Results.handleReject c5img3.id true c5s).selectedImage =
        (Results.filteredResults (Results.handleReject c5img3.id true c5s))[
          (Results.handleReject c5img3.id true c5s).currentImageIndex]?) ∧
    (Gallery.handleDelete navImg1.id true c5g).selectedImage = none :=
  ⟨(c5_remove_current_reanchor.2.1 c5s c5img3 rfl).2 (by decide),
   (c5_remove_current_reanchor.2.2 c5g navImg1 rfl).1 (by decide)⟩

/-! ## Navigator invariant -/

theorem Results.openFullscreenViewer_index_lt (image : NRecord)
    (s : Results.RState) (hmem : image ∈ Results.filteredResults s) :
    (Results.openFullscreenViewer image s).currentImageIndex <
      (Results.filteredResults s).length := by
  have hex : ∃ x ∈ Results.filteredResults s, (x.id == image.id) = true :=
    ⟨image, hmem, by simp⟩
  show (match (Results.filteredResults s).findIdx? (fun r => r.id == image.id) with
    | some i => i
    | none => 0) < (Results.filteredResults s).length
  rw [List.findIdx?_eq_some_of_exists hex]
  exact List.findIdx_lt_length_of_exists hex

/-- Every transition of the Results view other than the timestamp jump keeps
the fullscreen index inside the filtered list. -/
theorem Results.stepNoJump_preserves_inv (s s' : Results.RState)
    (h : Results.StepNoJump s s')
    (hinv : Results.isOpen s →
      s.currentImageIndex < (Results.filteredResults s).length) :
    Results.isOpen s' →
      s'.currentImageIndex < (Results.filteredResults s').length := by
  cases h with
  | clickCard image hov hmem =>
    intro _
    exact Results.openFullscreenViewer_index_lt image s hmem
  | clickInfo image hov hmem =>
    rintro ⟨hm, _⟩
    exact ViewerMode.noConfusion hm
  | navigate direction hop =>
    intro hop'
    by_cases hlen : (Results.filteredResults s).length = 0
    · have hid : Results.navigateImage direction s = s := by
        unfold Results.navigateImage
        rw [if_pos hlen]
      rw [hid] at hop' ⊢
      exact hinv hop'
    · have hlt : (Results.navigateImage direction s).currentImageIndex <
          (Results.filteredResults s).length := by
        unfold Results.navigateImage
        rw [if_neg hlen]
        cases direction <;> exact Nat.mod_lt _ (Nat.pos_of_ne_zero hlen)
      rw [Results.filteredResults_navigateImage]
      exact hlt
  | saveFullscreen sel remoteOk hfs hsel =>
    intro hop'
    have hsm : selMatches s.selectedImage sel.id = true := by
      rw [hsel]
      simp [selMatches]
    unfold Results.handleSave at hop' ⊢
    cases hph : s.results.find? (fun r => r.id == sel.id) with
    | none =>
      rw [hph] at hop'
      exact hinv hop'
    | some photo =>
      rw [hph] at hop'
      cases remoteOk with
      | false =>
        simp only [reduceIte] at hop' ⊢
        exact hinv hop'
      | true =>
        simp only [hsm, Bool.and_self, reduceIte] at hop' ⊢
        split at hop'
        · rename_i h0
          obtain ⟨_, hsome⟩ := hop'
          simp at hsome
        · rename_i h0
          rw [if_neg h0]
          exact lt_of_le_of_lt (Nat.min_le_right _ _)
            (Nat.sub_lt (Nat.pos_of_ne_zero h0) Nat.one_pos)
  | rejectFullscreen sel hfs hsel =>
    intro hop'
    have hsm : selMatches s.selectedImage sel.id = true := by
      rw [hsel]
      simp [selMatches]
    unfold Results.handleReject at hop' ⊢
    simp only [hsm, Bool.and_self, reduceIte] at hop' ⊢
    split at hop'
    · rename_i h0
      obtain ⟨_, hsome⟩ := hop'
      simp at hsome
    · rename_i h0
      rw [if_neg h0]
      exact lt_of_le_of_lt (Nat.min_le_right _ _)
        (Nat.sub_lt (Nat.pos_of_ne_zero h0) Nat.one_pos)
  | saveCard id remoteOk hov =>
    intro hop'
    unfold Results.handleSave at hop' ⊢
    cases hph : s.results.find? (fun r => r.id == id) with
    | none =>
      rw [hph] at hop'
      exact hinv hop'
    | some photo =>
      rw [hph] at hop'
      cases remoteOk with
      | false =>
        simp only [reduceIte] at hop' ⊢
        exact hinv hop'
      | true =>
        simp only [Bool.false_and, reduceIte, Bool.false_eq_true,
          if_false] at hop' ⊢
        obtain ⟨_, hsome⟩ := hop'
        change s.selectedImage.isSome = true at hsome
        rw [hov] at hsome
        simp at hsome
  | rejectCard id hov =>
    intro hop'
    have hsm : selMatches s.selectedImage id = false := by
      rw [hov]
      rfl
    unfold Results.handleReject at hop' ⊢
    simp only [hsm, Bool.and_false, Bool.false_eq_true, if_false,
      reduceIte] at hop' ⊢
    obtain ⟨_, hsome⟩ := hop'
    change s.selectedImage.isSome = true at hsome
    rw [hov] at hsome
    simp at hsome
  | closeBtn hsel =>
    rintro ⟨_, hsome⟩
    change (none : Option NRecord).isSome = true at hsome
    simp at hsome
  | switchTab t hov =>
    rintro ⟨_, hsome⟩
    change s.selectedImage.isSome = true at hsome
    rw [hov] at hsome
    simp at hsome

theorem Gallery.openImageViewer_index_lt (image : NRecord)
    (s : Gallery.GState) (hmem : image ∈ Gallery.filteredItems s) :
    (Gallery.openImageViewer image s).currentImageIndex <
      (Gallery.filteredItems s).length := by
  have hex : ∃ x ∈ Gallery.filteredItems s, (x.id == image.id) = true :=
    ⟨image, hmem, by simp⟩
  show (match (Gallery.filteredItems s).findIdx? (fun r => r.id == image.id) with
    | some i => i
    | none => 0) < (Gallery.filteredItems s).length
  rw [List.findIdx?_eq_some_of_exists hex]
  exact List.findIdx_lt_length_of_exists hex

/-- Every transition of the Gallery view keeps the viewer index inside the
filtered list. -/
theorem Gallery.step_preserves_inv (s s' : Gallery.GState)
    (h : Gallery.Step s s')
    (hinv : Gallery.isOpen s →
      s.currentImageIndex < (Gallery.filteredItems s).length) :
    Gallery.isOpen s' →
      s'.currentImageIndex < (Gallery.filteredItems s').length := by
  cases h with
  | clickCard image hov hmem =>
    intro _
    exact Gallery.openImageViewer_index_lt image s hmem
  | navigate direction hsel =>
    intro hop'
    by_cases hlen : (Gallery.filteredItems s).length = 0
    · have hid : Gallery.navigateImage direction s = s := by
        unfold Gallery.navigateImage
        rw [if_pos hlen]
      rw [hid] at hop' ⊢
      exact hinv hop'
    · have hlt : (Gallery.navigateImage direction s).currentImageIndex <
          (Gallery.filteredItems s).length := by
        unfold Gallery.navigateImage
        rw [if_neg hlen]
        cases direction <;> exact Nat.mod_lt _ (Nat.pos_of_ne_zero hlen)
      rw [Gallery.filteredItems_navigateImage]
      exact hlt
  | deleteSelected sel remoteOk hsel =>
    intro hop'
    have hsm : selMatches s.selectedImage sel.id = true := by
      rw [hsel]
      simp [selMatches]
    unfold Gallery.handleDelete at hop' ⊢
    cases remoteOk with
    | false =>
      simp only [reduceIte] at hop' ⊢
      exact hinv hop'
    | true =>
      simp only [hsm, reduceIte] at hop' ⊢
      split at hop'
      · rename_i h0
        change (none : Option NRecord).isSome = true at hop'
        simp at hop'
      · rename_i h0
        rw [if_neg h0]
        split at hop'
        · rename_i h1
          change (none : Option NRecord).isSome = true at hop'
          simp at hop'
        · rename_i h1
          rw [if_neg h1]
          exact lt_of_le_of_lt (Nat.min_le_right _ _)
            (Nat.sub_lt (Nat.pos_of_ne_zero h1) Nat.one_pos)
  | closeBtn hsel =>
    intro hop'
    change (none : Option NRecord).isSome = true at hop'
    simp at hop'
  | switchTab t hov =>
    intro hop'
    change s.selectedImage.isSome = true at hop'
    rw [hov] at hop'
    simp at hop'
  | zoom hsel =>
    intro hop'
    cases hps : s.selectedImage with
    | none =>
      simp [hps] at hsel
    | some sel =>
      have hz : Gallery.handleZoom s =
          if sel.media_type = "video" then s
          else { s with isZoomed := !s.isZoomed } := by
        unfold Gallery.handleZoom
        rw [hps]
      rw [hz] at hop' ⊢
      by_cases hvid : sel.media_type = "video"
      · rw [if_pos hvid] at hop' ⊢
        exact hinv hop'
      · rw [if_neg hvid] at hop' ⊢
        exact hinv hop'

/-- C3 counterexample: through the metadata-modal timestamp jump (Results.tsx
lines 679-694), which re-enters fullscreen mode without recomputing the
index, a state is reachable in which the viewer is open at index 1 over a
one-element filtered list.  Trace: open the second image fullscreen
(index 1), close, switch to the video tab, open the video in the info modal,
click its 7s timestamp chip. -/
theorem c3_counterexample :
    Results.Reachable c3s0 c3s5 ∧ Results.isOpen c3s5 ∧
    ¬ (c3s5.currentImageIndex < (Results.filteredResults c3s5).length) := by
  refine ⟨?_, ⟨rfl, rfl⟩, by decide⟩
  have h1 : Results.Step c3s0 c3s1 :=
    Results.Step.clickCard c3s0 navImg2 rfl (by decide)
  have h2 : Results.Step c3s1 c3s2 :=
    Results.Step.closeBtn c3s1 rfl
  have h3 : Results.Step c3s2 c3s3 :=
    Results.Step.switchTab c3s2 "video" rfl
  have h4 : Results.Step c3s3 c3s4 :=
    Results.Step.clickInfo c3s3 navVid rfl (by decide)
  have h5 : Results.Step c3s4 c3s5 :=
    Results.Step.timestampJump c3s4 navVid 7 rfl rfl rfl (by decide)
  exact Relation.ReflTransGen.tail
    (Relation.ReflTransGen.tail
      (Relation.ReflTransGen.tail
        (Relation.ReflTransGen.tail (Relation.ReflTransGen.single h1) h2) h3)
      h4) h5

/-- C3 amended: in the Gallery view the invariant holds for every reachable
state, and in the Results view it holds for every state reachable without the
metadata-modal timestamp-jump transition: whenever the fullscreen viewer is
open, its index is inside the current filtered list, and a closed viewer
(needed after every removal emptying the list) carries no valid index.  The
timestamp jump is the one transition that can re-open the viewer with a stale
out-of-range index. -/
theorem c3_amended :
    (∀ (res : List NRecord) (saved : List String) (mt : String)
        (s : Results.RState),
      Results.ReachableNoJump (Results.initState res saved mt) s →
      Results.isOpen s →
      s.currentImageIndex < (Results.filteredResults s).length) ∧
    (∀ (items : List NRecord) (mt : String) (s : Gallery.GState),
      Gallery.Reachable (Gallery.initState items mt) s →
      Gallery.isOpen s →
      s.currentImageIndex < (Gallery.filteredItems s).length) := by
  constructor
  · intro res saved mt s hreach
    unfold Results.ReachableNoJump at hreach
    induction hreach with
    | refl =>
      rintro ⟨_, hsome⟩
      simp [Results.initState] at hsome
    | tail hab hbc ih =>
      exact Results.stepNoJump_preserves_inv _ _ hbc ih
  · intro items mt s hreach
    unfold Gallery.Reachable at hreach
    induction hreach with
    | refl =>
      intro hsome
      simp [Gallery.isOpen, Gallery.initState] at hsome
    | tail hab hbc ih =>
      exact Gallery.step_preserves_inv _ _ hbc ih

/-- Witness for C3 on a concrete one-step-reachable open state. -/
theorem c3_witness :
    c3w1.currentImageIndex < (Results.filteredResults c3w1).length :=
  c3_amended.1 [navImg1, navImg2] [] "image" c3w1
    (Relation.ReflTransGen.single
      (Results.StepNoJump.clickCard c3w0 navImg1 rfl (by decide)))
    ⟨rfl, rfl⟩

end FaceFinder
